import Mathlib

/-!
# Verification of the product/tag catalog service

Shallow embedding of the Django REST application in this repository:
user accounts with token authentication, and owner-scoped CRUD for
`Product` and `Tag` resources with a many-to-many tag association.

The embedding follows the source files:
* `app/product/serializers.py` — `ProductSerializer` (`create`, `update`,
  `_get_or_create_tags`), `ProductDetailSerializer`, `TagSerializer`,
  `ProductImageSerializer`;
* `app/product/views.py` — `ProductViewSet` (`get_queryset`,
  `perform_create`; the `upload_image` action is commented out in the
  source) and `TagViewSet`;
* `app/user/serializers.py` — `UserSerializer` (fields, password
  `min_length: 8`, `create`) and `AuthTokenSerializer.validate`.

`core/models.py` and the URL/view plumbing of the `user` app are not
present in the source tree (only their tests and callers are); those
parts are modelled from the specification, and each such definition says
so in its doc comment.
-/

namespace DjangoApp

/-- A user account row. The password field stores the (abstractly
modelled) hash, never serialized out. -/
structure User where
  id : Nat
  username : String
  email : String
  passwordHash : String
  isStaff : Bool
  isSuperuser : Bool
  deriving DecidableEq, Repr

/-- A tag row: name plus owning user (by id). -/
structure Tag where
  id : Nat
  user : Nat
  name : String
  deriving DecidableEq, Repr

/-- A product row. `tags` is the set of associated tag ids (the
product–tag many-to-many association), kept as a duplicate-free list. -/
structure Product where
  id : Nat
  user : Nat
  title : String
  description : String
  price : Int
  image : Option String
  tags : List Nat
  deriving DecidableEq, Repr

/-- The persistent relational store. -/
structure Store where
  users : List User
  tags : List Tag
  products : List Product
  nextUserId : Nat
  nextTagId : Nat
  nextProductId : Nat
  deriving DecidableEq, Repr

/-- An inbound tag descriptor, as nested in a product payload
(`TagSerializer`: writable field `name`). -/
structure TagInput where
  name : String
  deriving DecidableEq, Repr

/-- Validated product data after `ProductSerializer` field filtering:
`Meta.fields` listing id, title, price and tags (id read-only),
and `ProductDetailSerializer` adds `description` and `image`.  A `none`
field is absent from the payload. -/
structure ValidatedProductData where
  title : Option String
  description : Option String
  price : Option Int
  tags : Option (List TagInput)
  deriving DecidableEq, Repr

/-- A raw inbound product payload before serializer validation.  It may
carry a `user` field; since `user` is not in `Meta.fields`, the
serializer drops it. -/
structure RawProductPayload where
  title : Option String
  description : Option String
  price : Option Int
  tags : Option (List TagInput)
  user : Option Nat
  deriving DecidableEq, Repr

/-- Serializer field filtering: `validated_data` keeps exactly the
writable fields declared in `ProductDetailSerializer.Meta.fields`; an
inbound `user` (or any other undeclared) field is silently dropped. -/
def validateProductPayload (raw : RawProductPayload) : ValidatedProductData :=
  { title := raw.title
    description := raw.description
    price := raw.price
    tags := raw.tags }

/-- Lookup `Tag.objects.filter(user=..., name=...)` used by
`get_or_create`: the first tag row matching `(owner, name)`. -/
def findTag (s : Store) (user : Nat) (name : String) : Option Tag :=
  s.tags.find? (fun t => t.user == user && t.name == name)

/-- Source `Tag.objects.get_or_create(user=auth_user, **tag)`: reuse the
existing row with matching `(owner, name)`, else create a fresh one.
Returns the resolved tag and the (possibly unchanged) store. -/
def get_or_create (s : Store) (user : Nat) (name : String) : Tag × Store :=
  match findTag s user name with
  | some t => (t, s)
  | none =>
      let t : Tag := { id := s.nextTagId, user := user, name := name }
      (t, { s with tags := s.tags ++ [t], nextTagId := s.nextTagId + 1 })

/-- Association insert `product.tags.add(tag_obj)`: a many-to-many `add` inserts the
association only if it is not already present (no duplicate rows). -/
def addAssoc (assoc : List Nat) (tid : Nat) : List Nat :=
  if tid ∈ assoc then assoc else assoc ++ [tid]

/-- Source `ProductSerializer._get_or_create_tags(tags, product)`: for each
descriptor, resolve via `get_or_create` against the requesting user and
attach to the product. -/
def get_or_create_tags (s : Store) (authUser : Nat) (tagInputs : List TagInput)
    (p : Product) : Product × Store :=
  match tagInputs with
  | [] => (p, s)
  | t :: rest =>
      let (tagObj, s1) := get_or_create s authUser t.name
      let p1 := { p with tags := addAssoc p.tags tagObj.id }
      get_or_create_tags s1 authUser rest p1

/-- Replace the product row with the same id (`instance.save()`). -/
def saveProduct (s : Store) (p : Product) : Store :=
  { s with products := s.products.map (fun q => if q.id == p.id then p else q) }

/-- Source `ProductSerializer.update(instance, validated_data)`:
pop `tags` (default `None`); when present, clear the association set and
re-resolve every descriptor; then assign each remaining present field
onto the instance and save.  Returns the updated instance and store. -/
def serializerUpdate (s : Store) (authUser : Nat) (inst : Product)
    (v : ValidatedProductData) : Product × Store :=
  let (p1, s1) :=
    match v.tags with
    | none => (inst, s)
    | some ts => get_or_create_tags s authUser ts { inst with tags := [] }
  let p2 := { p1 with
    title := v.title.getD p1.title
    description := v.description.getD p1.description
    price := v.price.getD p1.price }
  (p2, saveProduct s1 p2)

/-- Source `ProductSerializer.create(validated_data)` combined with
`ProductViewSet.perform_create` (`serializer.save(user=request.user)`):
pop `tags` (default `[]`), create the product owned by the requester,
then resolve-and-attach every tag descriptor. -/
def serializerCreate (s : Store) (authUser : Nat) (v : ValidatedProductData) :
    Product × Store :=
  let ts := v.tags.getD []
  let p : Product :=
    { id := s.nextProductId, user := authUser
      title := v.title.getD "", description := v.description.getD ""
      price := v.price.getD 0, image := none, tags := [] }
  let s1 := { s with nextProductId := s.nextProductId + 1 }
  let (p1, s2) := get_or_create_tags s1 authUser ts p
  (p1, { s2 with products := s2.products ++ [p1] })

/-- HTTP outcome of an API call, carrying the success payload. -/
inductive Response where
  | okProducts (ps : List Product)
  | okProduct (p : Product)
  | okTag (t : Tag)
  | okToken (userId : Nat)
  | createdUser (u : User)
  | createdProduct (p : Product)
  | noContent
  | badRequest
  | unauthorized
  | notFound
  | forbidden
  deriving DecidableEq, Repr

/-- Status code of each outcome, per the error taxonomy of the service. -/
def statusOf : Response → Nat
  | .okProducts _ => 200
  | .okProduct _ => 200
  | .okTag _ => 200
  | .okToken _ => 200
  | .createdUser _ => 201
  | .createdProduct _ => 201
  | .noContent => 204
  | .badRequest => 400
  | .unauthorized => 401
  | .notFound => 404
  | .forbidden => 403

/-- Insertion step for sorting products by descending id. -/
def insertByIdDesc (p : Product) : List Product → List Product
  | [] => [p]
  | q :: rest => if q.id ≤ p.id then p :: q :: rest else q :: insertByIdDesc p rest

/-- The ordering clause order_by by descending id. -/
def sortByIdDesc : List Product → List Product
  | [] => []
  | p :: rest => insertByIdDesc p (sortByIdDesc rest)

/-- Insertion step for sorting tags by descending name. -/
def insertByNameDesc (t : Tag) : List Tag → List Tag
  | [] => [t]
  | u :: rest => if u.name ≤ t.name then t :: u :: rest else u :: insertByNameDesc t rest

/-- The ordering clause order_by by descending name. -/
def sortByNameDesc : List Tag → List Tag
  | [] => []
  | t :: rest => insertByNameDesc t (sortByNameDesc rest)

/-- Source `ProductViewSet.get_queryset`: filter the queryset by
`user=self.request.user`, then order_by descending id.
Note that it reads nothing from `self.request.query_params`. -/
def product_get_queryset (s : Store) (requester : Nat) : List Product :=
  sortByIdDesc (s.products.filter (fun p => p.user == requester))

/-- The product list endpoint.  The request may carry a `tags` query
parameter, but `ProductViewSet.get_queryset` never reads the query
parameters, so the parameter has no effect on the result. -/
def listProducts (s : Store) (requester : Nat) (_tagsParam : Option String) :
    Response :=
  Response.okProducts (product_get_queryset s requester)

/-- Modelled from the spec: the generic detail-route object lookup of
the REST framework (external collaborator; `get_object` resolves the pk
inside `get_queryset()` and yields a not-found outcome when absent —
spec: NotFound (missing or not-owned entity) → 404). -/
def getObject (s : Store) (requester : Nat) (pid : Nat) : Option Product :=
  (product_get_queryset s requester).find? (fun p => p.id == pid)

/-- GET `/products/{id}/`. -/
def retrieveProduct (s : Store) (requester : Nat) (pid : Nat) :
    Response × Store :=
  match getObject s requester pid with
  | none => (Response.notFound, s)
  | some p => (Response.okProduct p, s)

/-- PATCH `/products/{id}/`: partial update; every field of the payload
is optional. -/
def patchProduct (s : Store) (requester : Nat) (pid : Nat)
    (raw : RawProductPayload) : Response × Store :=
  match getObject s requester pid with
  | none => (Response.notFound, s)
  | some p =>
      let (p1, s1) := serializerUpdate s requester p (validateProductPayload raw)
      (Response.okProduct p1, s1)

/-- PUT `/products/{id}/`: full update; the serializer requires the
writable non-optional fields (`title`, `price`; `tags` is declared
`required=False`) and rejects the request otherwise. -/
def putProduct (s : Store) (requester : Nat) (pid : Nat)
    (raw : RawProductPayload) : Response × Store :=
  match getObject s requester pid with
  | none => (Response.notFound, s)
  | some p =>
      if raw.title.isSome && raw.price.isSome then
        let (p1, s1) := serializerUpdate s requester p (validateProductPayload raw)
        (Response.okProduct p1, s1)
      else (Response.badRequest, s)

/-- DELETE `/products/{id}/`. -/
def destroyProduct (s : Store) (requester : Nat) (pid : Nat) :
    Response × Store :=
  match getObject s requester pid with
  | none => (Response.notFound, s)
  | some p =>
      (Response.noContent,
        { s with products := s.products.filter (fun q => !(q.id == p.id)) })

/-- Route for uploading a product image: the `upload_image` action and its
serializer-class branch are commented out in `app/product/views.py`, so
no `product-upload-image` route exists; a request to that path fails URL
resolution and yields a not-found outcome whatever the payload is, and
the store is untouched. -/
def uploadImage (s : Store) (_requester : Nat) (_pid : Nat)
    (_payload : String) : Response × Store :=
  (Response.notFound, s)

/-- Source `TagViewSet.get_queryset`: filter the queryset by
`user=self.request.user`, then order_by descending name. -/
def tag_get_queryset (s : Store) (requester : Nat) : List Tag :=
  sortByNameDesc (s.tags.filter (fun t => t.user == requester))

/-- Modelled from the spec: the generic detail-route object lookup for
tags, resolving the pk inside `TagViewSet.get_queryset()`. -/
def getTagObject (s : Store) (requester : Nat) (tid : Nat) : Option Tag :=
  (tag_get_queryset s requester).find? (fun t => t.id == tid)

/-- Replace the tag row with the same id (`instance.save()`). -/
def saveTag (s : Store) (t : Tag) : Store :=
  { s with tags := s.tags.map (fun u => if u.id == t.id then t else u) }

/-- PATCH `/tags/{id}/`: `TagSerializer` has writable field `name`
(`id` read-only); an absent `name` leaves it unchanged. -/
def patchTag (s : Store) (requester : Nat) (tid : Nat)
    (newName : Option String) : Response × Store :=
  match getTagObject s requester tid with
  | none => (Response.notFound, s)
  | some t =>
      let t1 := { t with name := newName.getD t.name }
      (Response.okTag t1, saveTag s t1)

/-- DELETE `/tags/{id}/`: removes the tag row; per the spec, deleting a
tag detaches it from any products (the association rows go with it). -/
def destroyTag (s : Store) (requester : Nat) (tid : Nat) :
    Response × Store :=
  match getTagObject s requester tid with
  | none => (Response.notFound, s)
  | some t =>
      (Response.noContent,
        { s with
            tags := s.tags.filter (fun u => !(u.id == t.id))
            products := s.products.map
              (fun p => { p with tags := p.tags.filter (fun i => !(i == t.id)) }) })

/-- Modelled from the spec: `core/models.py` is absent from the source
tree.  Email normalization of the user manager: the domain segment
(everything after the last `@`) is lower-cased, the local part is
preserved; an email without `@` is left as is.  Character-level helper. -/
def lowerDomainAux : List Char → List Char
  | [] => []
  | c :: rest =>
      if '@' ∈ rest then c :: lowerDomainAux rest
      else if c = '@' then c :: rest.map Char.toLower
      else c :: lowerDomainAux rest

/-- Modelled from the spec: `normalize_email` of the user manager
(`core/models.py`, absent from the source tree): lower-case the domain
segment of the address. -/
def normalize_email (email : String) : String :=
  String.mk (lowerDomainAux email.data)

/-- Modelled from the spec: password hashing is delegated to an external
credential store whose internals are out of scope; modelled as an
abstract injective placeholder. -/
def hashPassword (password : String) : String :=
  password

/-- Error taxonomy of the spec (§7): a validation failure. -/
inductive Err where
  | validationError
  deriving DecidableEq, Repr

/-- Modelled from the spec: the Identity Store factory `create_user` of
`core/models.py` (absent from the source tree): fails with
ValidationError when the username or the email is empty or already
taken (both fields are required and unique); otherwise normalizes the
email, hashes the password and persists the new account. -/
def create_user (s : Store) (username email password : String) :
    Except Err (User × Store) :=
  if username = "" then .error .validationError
  else if email = "" then .error .validationError
  else if s.users.any (fun u => u.username == username) then
    .error .validationError
  else if s.users.any (fun u => u.email == normalize_email email) then
    .error .validationError
  else
    let u : User :=
      { id := s.nextUserId, username := username
        email := normalize_email email
        passwordHash := hashPassword password
        isStaff := false, isSuperuser := false }
    .ok (u, { s with users := s.users ++ [u], nextUserId := s.nextUserId + 1 })

/-- POST `/users/` (account creation): `UserSerializer` declares
`password` with `min_length: 8` (and `write_only`), so a shorter
password fails validation; a valid payload is handed to
`get_user_model().objects.create_user(**validated_data)`, whose own
failures also surface as a validation failure (HTTP 400). -/
def createUserEndpoint (s : Store) (username email password : String) :
    Response × Store :=
  if password.length < 8 then (Response.badRequest, s)
  else
    match create_user s username email password with
    | .error _ => (Response.badRequest, s)
    | .ok (u, s1) => (Response.createdUser u, s1)

/-- Modelled from the spec: the framework function `authenticate` (external
collaborator) verifies a username/password pair against the stored hash
and returns the authenticated principal or nothing, with no further
detail. -/
def authenticate (s : Store) (username password : String) : Option User :=
  s.users.find?
    (fun u => u.username == username && u.passwordHash == hashPassword password)

/-- POST `/users/token/`: `AuthTokenSerializer.validate` calls
`authenticate(...)`; when it returns no user the serializer raises
`serializers.ValidationError` with code authorization, which the
framework maps to HTTP 400; otherwise the token for the principal is
issued. -/
def obtainToken (s : Store) (username password : String) :
    Response × Store :=
  match authenticate s username password with
  | some u => (Response.okToken u.id, s)
  | none => (Response.badRequest, s)

/-- At most one tag row per `(owner, name)` pair. -/
def tagUnique (s : Store) : Prop :=
  ∀ t1 ∈ s.tags, ∀ t2 ∈ s.tags, t1.user = t2.user → t1.name = t2.name → t1 = t2

/-- Product primary keys are unique. -/
def uniqueProductIds (s : Store) : Prop :=
  ∀ p1 ∈ s.products, ∀ p2 ∈ s.products, p1.id = p2.id → p1 = p2

/-- Tag primary keys are unique. -/
def uniqueTagIds (s : Store) : Prop :=
  ∀ t1 ∈ s.tags, ∀ t2 ∈ s.tags, t1.id = t2.id → t1 = t2

instance (s : Store) : Decidable (tagUnique s) := by
  unfold tagUnique; infer_instance

instance (s : Store) : Decidable (uniqueProductIds s) := by
  unfold uniqueProductIds; infer_instance

instance (s : Store) : Decidable (uniqueTagIds s) := by
  unfold uniqueTagIds; infer_instance

/-- A product write through the API: POST `/products/` or PATCH
`/products/{id}/`. -/
inductive Write where
  | createW (requester : Nat) (raw : RawProductPayload)
  | updateW (requester : Nat) (pid : Nat) (raw : RawProductPayload)
  deriving DecidableEq, Repr

/-- Store effect of one product write. -/
def applyWrite (s : Store) : Write → Store
  | .createW u raw => (serializerCreate s u (validateProductPayload raw)).2
  | .updateW u pid raw => (patchProduct s u pid raw).2

/-- Store effect of a sequence of product writes. -/
def applyWrites (s : Store) : List Write → Store
  | [] => s
  | w :: ws => applyWrites (applyWrite s w) ws

/-- The user row persisted by a successful `create_user`. -/
def mkNewUser (s : Store) (username email password : String) : User :=
  { id := s.nextUserId, username := username
    email := normalize_email email
    passwordHash := hashPassword password
    isStaff := false, isSuperuser := false }

/-- Fixture: first account. -/
def user1 : User :=
  { id := 1, username := "alice", email := "alice@example.com"
    passwordHash := hashPassword "password123!"
    isStaff := false, isSuperuser := false }

/-- Fixture: second account. -/
def user2 : User :=
  { id := 2, username := "bob", email := "bob@example.com"
    passwordHash := hashPassword "secret-pw-99"
    isStaff := false, isSuperuser := false }

/-- Fixture: tag `Tag 1` owned by `user1`. -/
def tagA : Tag := { id := 1, user := 1, name := "Tag 1" }

/-- Fixture: tag `Tag 2` owned by `user1`. -/
def tagB : Tag := { id := 2, user := 1, name := "Tag 2" }

/-- Fixture: tag owned by `user2`. -/
def tagC : Tag := { id := 3, user := 2, name := "BobTag" }

/-- Fixture: product of `user1` associated with `tagA`. -/
def prodA : Product :=
  { id := 1, user := 1, title := "Product 1", description := "d"
    price := 1, image := none, tags := [1] }

/-- Fixture: product of `user1` associated with `tagB`. -/
def prodB : Product :=
  { id := 2, user := 1, title := "Product 2", description := "d"
    price := 1, image := none, tags := [2] }

/-- Fixture: product of `user1` with no tags. -/
def prodC : Product :=
  { id := 3, user := 1, title := "Product3", description := "d"
    price := 1, image := none, tags := [] }

/-- Fixture: product of `user2`. -/
def prodBob : Product :=
  { id := 4, user := 2, title := "Bob product", description := "d"
    price := 1, image := none, tags := [] }

/-- Fixture: an update payload that carries an ownership field. -/
def rawW : RawProductPayload :=
  { title := some "T", description := none, price := some 5
    tags := none, user := some 2 }

/-- Fixture store with two users, three tags and four products. -/
def store0 : Store :=
  { users := [user1, user2]
    tags := [tagA, tagB, tagC]
    products := [prodA, prodB, prodC, prodBob]
    nextUserId := 3, nextTagId := 4, nextProductId := 5 }

lemma get_or_create_tags_fst_shape (u : Nat) :
    ∀ (ts : List TagInput) (s : Store) (p : Product),
    ∃ T s2, get_or_create_tags s u ts p = ({ p with tags := T }, s2) := by
  intro ts
  induction ts with
  | nil =>
      intro s p
      exact ⟨p.tags, s, by cases p; rfl⟩
  | cons t rest ih =>
      intro s p
      obtain ⟨T, s2, h⟩ := ih (get_or_create s u t.name).2
        { p with tags := addAssoc p.tags (get_or_create s u t.name).1.id }
      exact ⟨T, s2, by rw [get_or_create_tags]; exact h⟩

lemma serializerUpdate_fst_user (s : Store) (u : Nat) (p : Product)
    (v : ValidatedProductData) : ((serializerUpdate s u p v).1).user = p.user := by
  unfold serializerUpdate
  cases htags : v.tags with
  | none => simp
  | some ts =>
      obtain ⟨T, s2, h⟩ := get_or_create_tags_fst_shape u ts s { p with tags := [] }
      simp [h]

lemma serializerUpdate_fst_id (s : Store) (u : Nat) (p : Product)
    (v : ValidatedProductData) : ((serializerUpdate s u p v).1).id = p.id := by
  unfold serializerUpdate
  cases htags : v.tags with
  | none => simp
  | some ts =>
      obtain ⟨T, s2, h⟩ := get_or_create_tags_fst_shape u ts s { p with tags := [] }
      simp [h]

/-- C1: partial-update semantics of `ProductSerializer.update`: a field
absent from the validated payload is left unchanged (in particular an
absent `tags` field leaves the association set untouched); `tags: []`
yields an empty association set; a present `tags` list is resolved
against a cleared association set (clear-then-resolve), so the result
does not depend on the previous association set in any way. -/
theorem product_partial_update_semantics (s : Store) (u : Nat) (p : Product)
    (v : ValidatedProductData) :
    (v.title = none → ((serializerUpdate s u p v).1).title = p.title)
    ∧ (v.description = none →
        ((serializerUpdate s u p v).1).description = p.description)
    ∧ (v.price = none → ((serializerUpdate s u p v).1).price = p.price)
    ∧ (v.tags = none → ((serializerUpdate s u p v).1).tags = p.tags)
    ∧ (v.tags = some [] → ((serializerUpdate s u p v).1).tags = [])
    ∧ (∀ ts, v.tags = some ts →
        ((serializerUpdate s u p v).1).tags
            = ((get_or_create_tags s u ts { p with tags := [] }).1).tags
          ∧ ∀ prior : List Nat,
            ((serializerUpdate s u p v).1).tags
              = ((serializerUpdate s u { p with tags := prior } v).1).tags) := by
  refine ⟨?_, ?_, ?_, ?_, ?_, ?_⟩
  · intro h
    unfold serializerUpdate
    cases htags : v.tags with
    | none => simp [h]
    | some ts =>
        obtain ⟨T, s2, hs⟩ := get_or_create_tags_fst_shape u ts s { p with tags := [] }
        simp [hs, h]
  · intro h
    unfold serializerUpdate
    cases htags : v.tags with
    | none => simp [h]
    | some ts =>
        obtain ⟨T, s2, hs⟩ := get_or_create_tags_fst_shape u ts s { p with tags := [] }
        simp [hs, h]
  · intro h
    unfold serializerUpdate
    cases htags : v.tags with
    | none => simp [h]
    | some ts =>
        obtain ⟨T, s2, hs⟩ := get_or_create_tags_fst_shape u ts s { p with tags := [] }
        simp [hs, h]
  · intro h
    unfold serializerUpdate
    simp [h]
  · intro h
    unfold serializerUpdate
    simp [h, get_or_create_tags]
  · intro ts h
    constructor
    · unfold serializerUpdate
      obtain ⟨T, s2, hs⟩ := get_or_create_tags_fst_shape u ts s { p with tags := [] }
      simp [h, hs]
    · intro prior
      unfold serializerUpdate
      have hclear : ({ p with tags := prior } : Product).tags = prior := rfl
      have : ({ ({ p with tags := prior } : Product) with tags := ([] : List Nat) } : Product)
          = { p with tags := [] } := rfl
      simp [h, this]

theorem product_partial_update_semantics_witness :
    ((serializerUpdate store0 1 prodA ⟨none, none, none, none⟩).1).tags = prodA.tags
    ∧ ((serializerUpdate store0 1 prodA ⟨none, none, none, some []⟩).1).tags = []
    ∧ ((serializerUpdate store0 1 prodA ⟨some "New", none, none, some [⟨"Tag 2"⟩]⟩).1).tags
        = ((get_or_create_tags store0 1 [⟨"Tag 2"⟩] { prodA with tags := [] }).1).tags :=
  ⟨(product_partial_update_semantics store0 1 prodA _).2.2.2.1 rfl,
   (product_partial_update_semantics store0 1 prodA _).2.2.2.2.1 rfl,
   ((product_partial_update_semantics store0 1 prodA _).2.2.2.2.2 [⟨"Tag 2"⟩] rfl).1⟩

/-- C5: the product list endpoint ignores the `tags` query parameter —
`ProductViewSet.get_queryset` only filters by owner — so the listing for
`user1` with `tags=1,2` still contains `prodC`, which has none of the
given tags; the claimed at-least-one-matching-tag filtering does not
happen. -/
theorem list_products_ignores_tags_param :
    (∀ param : Option String,
        listProducts store0 1 param = Response.okProducts [prodC, prodB, prodA])
    ∧ listProducts store0 1 (some "1,2") = Response.okProducts [prodC, prodB, prodA]
    ∧ prodC ∈ [prodC, prodB, prodA]
    ∧ prodC.tags = [] :=
  ⟨fun _ => rfl, by decide, by decide, by decide⟩

/-- C7: account creation with an empty username or an empty email fails
with ValidationError, and through the public endpoint the store is
returned unchanged (no user persisted). -/
theorem empty_username_or_email_rejected (s : Store)
    (username email password : String) (h : username = "" ∨ email = "") :
    create_user s username email password = .error .validationError
    ∧ createUserEndpoint s username email password = (Response.badRequest, s) := by
  have hcu : create_user s username email password = .error .validationError := by
    cases h with
    | inl h1 => simp [create_user, h1]
    | inr h1 => simp [create_user, h1]
  refine ⟨hcu, ?_⟩
  unfold createUserEndpoint
  by_cases hlen : password.length < 8
  · simp [hlen]
  · simp [hlen, hcu]

theorem empty_username_or_email_rejected_witness :
    create_user store0 "" "x@example.com" "password123" = .error .validationError
    ∧ createUserEndpoint store0 "" "x@example.com" "password123"
        = (Response.badRequest, store0) :=
  empty_username_or_email_rejected store0 "" "x@example.com" "password123" (Or.inl rfl)

/-- C8 counterexample: a token request with a wrong password for an
existing account is answered with HTTP 400 (the serializer raises a
ValidationError), not with HTTP 401 as claimed. -/
theorem token_bad_credentials_not_401 :
    statusOf (obtainToken store0 "alice" "badpass").1 = 400
    ∧ ¬ statusOf (obtainToken store0 "alice" "badpass").1 = 401 := by
  constructor
  · decide
  · decide

/-- C8 (amended): a token-obtain request with an invalid
username/password pair fails as a validation error mapped to HTTP
status 400, with no further detail and no token, and the store is
unchanged. -/
theorem token_bad_credentials_400 (s : Store) (username password : String)
    (h : authenticate s username password = none) :
    obtainToken s username password = (Response.badRequest, s)
    ∧ statusOf (obtainToken s username password).1 = 400
    ∧ ∀ uid, (obtainToken s username password).1 ≠ Response.okToken uid := by
  refine ⟨by simp [obtainToken, h], by simp [obtainToken, h, statusOf], ?_⟩
  intro uid
  simp [obtainToken, h]

theorem token_bad_credentials_400_witness :
    obtainToken store0 "alice" "badpass" = (Response.badRequest, store0)
    ∧ statusOf (obtainToken store0 "alice" "badpass").1 = 400
    ∧ ∀ uid, (obtainToken store0 "alice" "badpass").1 ≠ Response.okToken uid :=
  token_bad_credentials_400 store0 "alice" "badpass" (by decide)

/-- C9: the `upload_image` action (and its serializer-class branch) is
commented out in `app/product/views.py`, so the `product-upload-image`
route does not exist; any request to it — malformed image or not — ends
in a not-found outcome (404), never the claimed validation failure
(400), and the store (hence every stored image reference) is
untouched. -/
theorem upload_image_route_absent :
    ∀ (s : Store) (r pid : Nat) (payload : String),
      uploadImage s r pid payload = (Response.notFound, s)
      ∧ statusOf (uploadImage s r pid payload).1 = 404
      ∧ statusOf (uploadImage s r pid payload).1 ≠ 400 :=
  fun s _ _ _ => ⟨rfl, rfl, by simp [uploadImage, statusOf]⟩

lemma get_or_create_tagUnique (s : Store) (u : Nat) (n : String)
    (h : tagUnique s) : tagUnique (get_or_create s u n).2 := by
  unfold get_or_create
  cases hf : findTag s u n with
  | some t => exact h
  | none =>
      have hall : ∀ t ∈ s.tags, ¬((t.user == u && t.name == n) = true) := by
        intro t ht
        exact List.find?_eq_none.mp hf t ht
      intro t1 h1 t2 h2 husr hname
      have h1' : t1 ∈ s.tags ∨ t1 = { id := s.nextTagId, user := u, name := n } := by
        simpa using List.mem_append.mp h1
      have h2' : t2 ∈ s.tags ∨ t2 = { id := s.nextTagId, user := u, name := n } := by
        simpa using List.mem_append.mp h2
      rcases h1' with h1' | h1' <;> rcases h2' with h2' | h2'
      · exact h t1 h1' t2 h2' husr hname
      · exfalso
        apply hall t1 h1'
        have hu1 : t1.user = u := by rw [husr, h2']
        have hn1 : t1.name = n := by rw [hname, h2']
        simp [hu1, hn1]
      · exfalso
        apply hall t2 h2'
        have hu2 : t2.user = u := by rw [← husr, h1']
        have hn2 : t2.name = n := by rw [← hname, h1']
        simp [hu2, hn2]
      · rw [h1', h2']

lemma get_or_create_tags_tagUnique (u : Nat) :
    ∀ (ts : List TagInput) (s : Store) (p : Product), tagUnique s →
      tagUnique (get_or_create_tags s u ts p).2 := by
  intro ts
  induction ts with
  | nil => intro s p h; exact h
  | cons t rest ih =>
      intro s p h
      rw [get_or_create_tags]
      exact ih _ _ (get_or_create_tagUnique s u t.name h)

lemma saveProduct_tags (s : Store) (p : Product) : (saveProduct s p).tags = s.tags :=
  rfl

lemma serializerUpdate_tagUnique (s : Store) (u : Nat) (p : Product)
    (v : ValidatedProductData) (h : tagUnique s) :
    tagUnique (serializerUpdate s u p v).2 := by
  cases htags : v.tags with
  | none =>
      simp only [serializerUpdate, htags]
      exact h
  | some ts =>
      cases hg : get_or_create_tags s u ts { p with tags := [] } with
      | mk p1 s1 =>
          have hu := get_or_create_tags_tagUnique u ts s { p with tags := [] } h
          rw [hg] at hu
          simp only [serializerUpdate, htags, hg]
          exact hu

lemma serializerCreate_tagUnique (s : Store) (u : Nat)
    (v : ValidatedProductData) (h : tagUnique s) :
    tagUnique (serializerCreate s u v).2 := by
  have base : tagUnique { s with nextProductId := s.nextProductId + 1 } := h
  cases hg : get_or_create_tags { s with nextProductId := s.nextProductId + 1 } u
      (v.tags.getD [])
      { id := s.nextProductId, user := u
        title := v.title.getD "", description := v.description.getD ""
        price := v.price.getD 0, image := none, tags := [] } with
  | mk p1 s2 =>
      have hu := get_or_create_tags_tagUnique u (v.tags.getD [])
        { s with nextProductId := s.nextProductId + 1 }
        { id := s.nextProductId, user := u
          title := v.title.getD "", description := v.description.getD ""
          price := v.price.getD 0, image := none, tags := [] } base
      rw [hg] at hu
      simp only [serializerCreate, hg]
      exact hu

lemma patchProduct_tagUnique (s : Store) (u pid : Nat) (raw : RawProductPayload)
    (h : tagUnique s) : tagUnique (patchProduct s u pid raw).2 := by
  cases hf : getObject s u pid with
  | none =>
      simp only [patchProduct, hf]
      exact h
  | some p =>
      cases hg : serializerUpdate s u p (validateProductPayload raw) with
      | mk p1 s1 =>
          have hu := serializerUpdate_tagUnique s u p (validateProductPayload raw) h
          rw [hg] at hu
          simp only [patchProduct, hf, hg]
          exact hu

lemma applyWrite_tagUnique (s : Store) (w : Write) (h : tagUnique s) :
    tagUnique (applyWrite s w) := by
  cases w with
  | createW u raw => exact serializerCreate_tagUnique s u (validateProductPayload raw) h
  | updateW u pid raw => exact patchProduct_tagUnique s u pid raw h

/-- C2: tag resolution on product writes: a descriptor whose
`(owner, name)` pair already exists is resolved to the existing row with
the store untouched (no duplicate row); and the at-most-one-tag-per-
`(owner, name)` invariant is preserved by every sequence of product
writes. -/
theorem tag_resolution_at_most_one_per_owner_name (s : Store)
    (hs : tagUnique s) :
    (∀ u n t, findTag s u n = some t → get_or_create s u n = (t, s))
    ∧ ∀ ws : List Write, tagUnique (applyWrites s ws) := by
  constructor
  · intro u n t h
    unfold get_or_create
    rw [h]
  · intro ws
    induction ws generalizing s with
    | nil => exact hs
    | cons w rest ih => exact ih (applyWrite s w) (applyWrite_tagUnique s w hs)

theorem tag_resolution_at_most_one_per_owner_name_witness :
    get_or_create store0 1 "Tag 1" = (tagA, store0)
    ∧ tagUnique (applyWrites store0
        [Write.createW 1 ⟨some "P", none, some 2, some [⟨"Tag 1"⟩, ⟨"Fresh"⟩], none⟩,
         Write.updateW 1 1 ⟨none, none, none, some [⟨"Fresh"⟩], none⟩]) :=
  ⟨(tag_resolution_at_most_one_per_owner_name store0 (by decide)).1 1 "Tag 1" tagA
      (by decide),
   (tag_resolution_at_most_one_per_owner_name store0 (by decide)).2 _⟩

lemma mem_insertByIdDesc {q p : Product} {l : List Product} :
    q ∈ insertByIdDesc p l ↔ q = p ∨ q ∈ l := by
  induction l with
  | nil => simp [insertByIdDesc]
  | cons r rest ih =>
      simp only [insertByIdDesc]
      split
      · simp [List.mem_cons]
      · simp only [List.mem_cons, ih]
        tauto

lemma mem_sortByIdDesc {q : Product} {l : List Product} :
    q ∈ sortByIdDesc l ↔ q ∈ l := by
  induction l with
  | nil => simp [sortByIdDesc]
  | cons r rest ih =>
      simp only [sortByIdDesc, mem_insertByIdDesc, List.mem_cons, ih]

lemma mem_insertByNameDesc {q t : Tag} {l : List Tag} :
    q ∈ insertByNameDesc t l ↔ q = t ∨ q ∈ l := by
  induction l with
  | nil => simp [insertByNameDesc]
  | cons r rest ih =>
      simp only [insertByNameDesc]
      split
      · simp [List.mem_cons]
      · simp only [List.mem_cons, ih]
        tauto

lemma mem_sortByNameDesc {q : Tag} {l : List Tag} :
    q ∈ sortByNameDesc l ↔ q ∈ l := by
  induction l with
  | nil => simp [sortByNameDesc]
  | cons r rest ih =>
      simp only [sortByNameDesc, mem_insertByNameDesc, List.mem_cons, ih]

lemma getObject_none_of_not_owner (s : Store) (r : Nat) (p : Product)
    (hids : uniqueProductIds s) (hp : p ∈ s.products) (hpu : p.user ≠ r) :
    getObject s r p.id = none := by
  unfold getObject
  apply List.find?_eq_none.mpr
  intro q hq hqid
  have hq1 : q ∈ s.products.filter (fun x => x.user == r) := by
    have := mem_sortByIdDesc.mp hq
    simpa [product_get_queryset] using this
  have hq2 : q ∈ s.products ∧ q.user = r := by
    have := List.mem_filter.mp hq1
    exact ⟨this.1, by simpa using this.2⟩
  have hqp : q = p := hids q hq2.1 p hp (by simpa using hqid)
  exact hpu (hqp ▸ hq2.2)

lemma getTagObject_none_of_not_owner (s : Store) (r : Nat) (t : Tag)
    (hids : uniqueTagIds s) (ht : t ∈ s.tags) (htu : t.user ≠ r) :
    getTagObject s r t.id = none := by
  unfold getTagObject
  apply List.find?_eq_none.mpr
  intro q hq hqid
  have hq1 : q ∈ s.tags.filter (fun x => x.user == r) := by
    have := mem_sortByNameDesc.mp hq
    simpa [tag_get_queryset] using this
  have hq2 : q ∈ s.tags ∧ q.user = r := by
    have := List.mem_filter.mp hq1
    exact ⟨this.1, by simpa using this.2⟩
  have hqt : q = t := hids q hq2.1 t ht (by simpa using hqid)
  exact htu (hqt ▸ hq2.2)

/-- C3: every retrieve, update or delete request by an authenticated
user against an existing product or tag owned by a different user ends
in a not-found outcome — never a forbidden one — and the store (hence
the target entity) is completely unchanged; in particular a delete
attempt by a non-owner leaves the entity in existence. -/
theorem cross_user_access_hidden (s : Store) (r : Nat) (p : Product) (t : Tag)
    (hpid : uniqueProductIds s) (htid : uniqueTagIds s)
    (hp : p ∈ s.products) (hpu : p.user ≠ r)
    (ht : t ∈ s.tags) (htu : t.user ≠ r) :
    retrieveProduct s r p.id = (Response.notFound, s)
    ∧ (∀ raw, patchProduct s r p.id raw = (Response.notFound, s))
    ∧ (∀ raw, putProduct s r p.id raw = (Response.notFound, s))
    ∧ destroyProduct s r p.id = (Response.notFound, s)
    ∧ p ∈ ((destroyProduct s r p.id).2).products
    ∧ (∀ newName, patchTag s r t.id newName = (Response.notFound, s))
    ∧ destroyTag s r t.id = (Response.notFound, s)
    ∧ t ∈ ((destroyTag s r t.id).2).tags := by
  have hno : getObject s r p.id = none := getObject_none_of_not_owner s r p hpid hp hpu
  have htno : getTagObject s r t.id = none := getTagObject_none_of_not_owner s r t htid ht htu
  refine ⟨?_, ?_, ?_, ?_, ?_, ?_, ?_, ?_⟩
  · simp [retrieveProduct, hno]
  · intro raw; simp [patchProduct, hno]
  · intro raw; simp [putProduct, hno]
  · simp [destroyProduct, hno]
  · simp [destroyProduct, hno, hp]
  · intro newName; simp [patchTag, htno]
  · simp [destroyTag, htno]
  · simp [destroyTag, htno, ht]

theorem cross_user_access_hidden_witness :
    retrieveProduct store0 2 prodA.id = (Response.notFound, store0)
    ∧ destroyProduct store0 2 prodA.id = (Response.notFound, store0)
    ∧ prodA ∈ ((destroyProduct store0 2 prodA.id).2).products
    ∧ destroyTag store0 2 tagA.id = (Response.notFound, store0)
    ∧ tagA ∈ ((destroyTag store0 2 tagA.id).2).tags :=
  ⟨(cross_user_access_hidden store0 2 prodA tagA (by decide) (by decide)
      (by decide) (by decide) (by decide) (by decide)).1,
   (cross_user_access_hidden store0 2 prodA tagA (by decide) (by decide)
      (by decide) (by decide) (by decide) (by decide)).2.2.2.1,
   (cross_user_access_hidden store0 2 prodA tagA (by decide) (by decide)
      (by decide) (by decide) (by decide) (by decide)).2.2.2.2.1,
   (cross_user_access_hidden store0 2 prodA tagA (by decide) (by decide)
      (by decide) (by decide) (by decide) (by decide)).2.2.2.2.2.2.1,
   (cross_user_access_hidden store0 2 prodA tagA (by decide) (by decide)
      (by decide) (by decide) (by decide) (by decide)).2.2.2.2.2.2.2⟩

lemma get_or_create_snd_products (s : Store) (u : Nat) (n : String) :
    ((get_or_create s u n).2).products = s.products := by
  unfold get_or_create
  cases findTag s u n <;> rfl

lemma get_or_create_tags_snd_products (u : Nat) :
    ∀ (ts : List TagInput) (s : Store) (p : Product),
    ((get_or_create_tags s u ts p).2).products = s.products := by
  intro ts
  induction ts with
  | nil => intro s p; rfl
  | cons t rest ih =>
      intro s p
      rw [get_or_create_tags, ih, get_or_create_snd_products]

lemma serializerUpdate_snd_products (s : Store) (u : Nat) (p : Product)
    (v : ValidatedProductData) :
    ((serializerUpdate s u p v).2).products
      = s.products.map (fun q =>
          if q.id == ((serializerUpdate s u p v).1).id
          then (serializerUpdate s u p v).1 else q) := by
  cases htags : v.tags with
  | none => simp only [serializerUpdate, htags, saveProduct]
  | some ts =>
      cases hg : get_or_create_tags s u ts { p with tags := [] } with
      | mk p1 s1 =>
          have hpr : s1.products = s.products := by
            have := get_or_create_tags_snd_products u ts s { p with tags := [] }
            rw [hg] at this
            exact this
          simp only [serializerUpdate, htags, hg, saveProduct, hpr]

/-- C4: product updates never change ownership: an inbound `user` field
is dropped by serializer field filtering (`user` is not among
`Meta.fields`), the request still succeeds (HTTP 200), the returned
product keeps its original owner, and in the stored data every product
row with the updated id keeps its original owner — for partial and for
full updates alike. -/
theorem ownership_immutable_on_update (s : Store) (r : Nat) (p : Product)
    (raw : RawProductPayload) (hfound : getObject s r p.id = some p) :
    (∀ w, validateProductPayload { raw with user := w } = validateProductPayload raw)
    ∧ statusOf (patchProduct s r p.id raw).1 = 200
    ∧ (∀ q, (patchProduct s r p.id raw).1 = Response.okProduct q → q.user = p.user)
    ∧ (∀ q ∈ ((patchProduct s r p.id raw).2).products, q.id = p.id → q.user = p.user)
    ∧ (raw.title.isSome = true → raw.price.isSome = true →
        statusOf (putProduct s r p.id raw).1 = 200
        ∧ ∀ q, (putProduct s r p.id raw).1 = Response.okProduct q → q.user = p.user) := by
  have hpatch : patchProduct s r p.id raw
      = (Response.okProduct (serializerUpdate s r p (validateProductPayload raw)).1,
         (serializerUpdate s r p (validateProductPayload raw)).2) := by
    cases hg : serializerUpdate s r p (validateProductPayload raw) with
    | mk p1 s1 => simp [patchProduct, hfound, hg]
  refine ⟨fun w => rfl, ?_, ?_, ?_, ?_⟩
  · rw [hpatch]
    rfl
  · intro q hq
    rw [hpatch] at hq
    injection hq with h
    rw [← h]
    exact serializerUpdate_fst_user s r p (validateProductPayload raw)
  · intro q hq hid
    rw [hpatch] at hq
    simp only at hq
    rw [serializerUpdate_snd_products] at hq
    obtain ⟨q0, hq0, heq⟩ := List.mem_map.mp hq
    by_cases hc : q0.id = ((serializerUpdate s r p (validateProductPayload raw)).1).id
    · rw [if_pos (by simpa using hc)] at heq
      rw [← heq]
      exact serializerUpdate_fst_user s r p (validateProductPayload raw)
    · rw [if_neg (by simpa using hc)] at heq
      exfalso
      apply hc
      rw [heq, hid, serializerUpdate_fst_id]
  · intro ht hpr
    have hput : putProduct s r p.id raw
        = (Response.okProduct (serializerUpdate s r p (validateProductPayload raw)).1,
           (serializerUpdate s r p (validateProductPayload raw)).2) := by
      cases hg : serializerUpdate s r p (validateProductPayload raw) with
      | mk p1 s1 => simp [putProduct, hfound, ht, hpr, hg]
    refine ⟨by rw [hput]; rfl, ?_⟩
    intro q hq
    rw [hput] at hq
    injection hq with h
    rw [← h]
    exact serializerUpdate_fst_user s r p (validateProductPayload raw)

theorem ownership_immutable_on_update_witness :
    validateProductPayload { rawW with user := some 99 } = validateProductPayload rawW
    ∧ statusOf (patchProduct store0 1 prodA.id rawW).1 = 200
    ∧ statusOf (putProduct store0 1 prodA.id rawW).1 = 200 :=
  ⟨(ownership_immutable_on_update store0 1 prodA rawW (by decide)).1 (some 99),
   (ownership_immutable_on_update store0 1 prodA rawW (by decide)).2.1,
   ((ownership_immutable_on_update store0 1 prodA rawW (by decide)).2.2.2.2
      (by decide) (by decide)).1⟩

lemma lowerDomainAux_append (lpart dpart : List Char) (hdom : '@' ∉ dpart) :
    lowerDomainAux (lpart ++ '@' :: dpart) = lpart ++ '@' :: dpart.map Char.toLower := by
  induction lpart with
  | nil => simp [lowerDomainAux, hdom]
  | cons c rest ih =>
      have hmem : '@' ∈ rest ++ '@' :: dpart := by simp
      simp [lowerDomainAux, hmem, ih]

lemma create_user_eq_ok (s : Store) (username email password : String)
    (hu : username ≠ "") (he : email ≠ "")
    (hnu : s.users.any (fun u => u.username == username) = false)
    (hne : s.users.any (fun u => u.email == normalize_email email) = false) :
    create_user s username email password
      = .ok (mkNewUser s username email password,
             { s with users := s.users ++ [mkNewUser s username email password],
                      nextUserId := s.nextUserId + 1 }) := by
  simp [create_user, mkNewUser, hu, he, hnu, hne]

lemma createUserEndpoint_success (s : Store) (username email password : String)
    (hlen : 8 ≤ password.length) (hu : username ≠ "") (he : email ≠ "")
    (hnu : s.users.any (fun u => u.username == username) = false)
    (hne : s.users.any (fun u => u.email == normalize_email email) = false) :
    createUserEndpoint s username email password
      = (Response.createdUser (mkNewUser s username email password),
         { s with users := s.users ++ [mkNewUser s username email password],
                  nextUserId := s.nextUserId + 1 }) := by
  have h8 : ¬ password.length < 8 := by omega
  simp [createUserEndpoint, h8,
    create_user_eq_ok s username email password hu he hnu hne]

/-- C6: account creation with a non-empty username, a non-empty email
of shape `local@domain`, a long-enough password and no clash with an
existing account succeeds, persists the new user, and stores the input
email with its domain segment lower-cased and its local part
preserved. -/
theorem email_domain_lowercased (s : Store) (username email password : String)
    (lpart dpart : List Char)
    (hu : username ≠ "")
    (hnu : s.users.any (fun u => u.username == username) = false)
    (hne : s.users.any (fun u => u.email == normalize_email email) = false)
    (hlen : 8 ≤ password.length)
    (hsplit : email.data = lpart ++ '@' :: dpart)
    (hdom : '@' ∉ dpart) :
    createUserEndpoint s username email password
      = (Response.createdUser (mkNewUser s username email password),
         { s with users := s.users ++ [mkNewUser s username email password],
                  nextUserId := s.nextUserId + 1 })
    ∧ (mkNewUser s username email password).email.data
        = lpart ++ '@' :: dpart.map Char.toLower := by
  have he : email ≠ "" := by
    intro h
    rw [h] at hsplit
    have h0 : ([] : List Char) = lpart ++ '@' :: dpart := hsplit
    cases lpart <;> simp at h0
  refine ⟨createUserEndpoint_success s username email password hlen hu he hnu hne, ?_⟩
  show (normalize_email email).data = lpart ++ '@' :: dpart.map Char.toLower
  show lowerDomainAux email.data = lpart ++ '@' :: dpart.map Char.toLower
  rw [hsplit]
  exact lowerDomainAux_append lpart dpart hdom

theorem email_domain_lowercased_witness :
    createUserEndpoint store0 "carol" "carol@EX.com" "pw123456"
      = (Response.createdUser (mkNewUser store0 "carol" "carol@EX.com" "pw123456"),
         { store0 with
             users := store0.users ++ [mkNewUser store0 "carol" "carol@EX.com" "pw123456"]
             nextUserId := store0.nextUserId + 1 })
    ∧ (mkNewUser store0 "carol" "carol@EX.com" "pw123456").email.data
        = ['c','a','r','o','l'] ++ '@' :: (['E','X','.','c','o','m'].map Char.toLower) :=
  email_domain_lowercased store0 "carol" "carol@EX.com" "pw123456"
    ['c','a','r','o','l'] ['E','X','.','c','o','m']
    (by decide) (by decide) (by decide) (by decide) (by decide) (by decide)

/-- C10: a public account-creation request with a password shorter than
8 characters is rejected (HTTP 400) with the store unchanged (no user
persisted); with 8 or more characters and otherwise valid, non-clashing
fields the account is created and persisted. -/
theorem password_min_length_8 (s : Store) (username email password : String) :
    (password.length < 8 →
      createUserEndpoint s username email password = (Response.badRequest, s))
    ∧ (8 ≤ password.length → username ≠ "" → email ≠ "" →
        s.users.any (fun u => u.username == username) = false →
        s.users.any (fun u => u.email == normalize_email email) = false →
        createUserEndpoint s username email password
          = (Response.createdUser (mkNewUser s username email password),
             { s with users := s.users ++ [mkNewUser s username email password],
                      nextUserId := s.nextUserId + 1 })) := by
  constructor
  · intro h
    simp [createUserEndpoint, h]
  · intro hlen hu he hnu hne
    exact createUserEndpoint_success s username email password hlen hu he hnu hne

theorem password_min_length_8_witness :
    createUserEndpoint store0 "dave" "dave@example.com" "pw"
        = (Response.badRequest, store0)
    ∧ createUserEndpoint store0 "dave" "dave@example.com" "password123"
        = (Response.createdUser (mkNewUser store0 "dave" "dave@example.com" "password123"),
           { store0 with
               users := store0.users ++ [mkNewUser store0 "dave" "dave@example.com" "password123"]
               nextUserId := store0.nextUserId + 1 }) :=
  ⟨(password_min_length_8 store0 "dave" "dave@example.com" "pw").1 (by decide),
   (password_min_length_8 store0 "dave" "dave@example.com" "password123").2
     (by decide) (by decide) (by decide) (by decide) (by decide)⟩

end DjangoApp
